import Mathlib

/-!
Shallow embedding of the audio engine in src/services/audioEngine.ts
(class AudioEngine) together with the track data model of the shared
type declarations.  Times, frequencies, gains and tempo values are
modelled as exact rationals; the mutable fields of the class become an
explicit state record, and each method becomes a state-passing
function.  Voice triggers, which in the source allocate Web Audio
nodes, are modelled as values describing the constructed signal chain.
-/

namespace VibeAudio

/-- Oscillator waveforms admitted by the track document
(sawtooth, square, sine, triangle). -/
inductive Waveform
  | sine
  | square
  | sawtooth
  | triangle
deriving DecidableEq

/-- Lead synth settings of a track document (synthSettings). -/
structure SynthSettings where
  waveform : Waveform
  cutoff : ℚ
  resonance : ℚ
  attack : ℚ
  decay : ℚ
deriving DecidableEq

/-- Bass settings of a track document (bassSettings). -/
structure BassSettings where
  waveform : Waveform
  filterFreq : ℚ
deriving DecidableEq

/-- Drum settings of a track document (drumSettings). -/
structure DrumSettings where
  kickPunch : ℚ
  hatBright : ℚ
deriving DecidableEq

/-- The six step sequences of a track document.  kick and hat are
boolean trigger rows; bass and lead hold a note name or null per step;
sfx and custom are modelled as optional rows because the dispatcher
guards on their presence before indexing. -/
structure Sequences where
  kick : List Bool
  hat : List Bool
  bass : List (Option String)
  lead : List (Option String)
  sfx : Option (List Bool)
  custom : Option (List Bool)
deriving DecidableEq

/-- The TrackData document (fields consumed by the audio engine). -/
structure TrackData where
  bpm : ℚ
  key : String
  mood : String
  soundEffect : Option String
  synthSettings : SynthSettings
  bassSettings : BassSettings
  drumSettings : DrumSettings
  sequences : Sequences
deriving DecidableEq

/-- The note-to-frequency map NOTE_FREQS of audioEngine.ts. -/
def NOTE_FREQS : List (String × ℚ) :=
  [("C1", 32.70), ("C#1", 34.65), ("D1", 36.71), ("D#1", 38.89), ("E1", 41.20),
   ("F1", 43.65), ("F#1", 46.25), ("G1", 49.00), ("G#1", 51.91), ("A1", 55.00),
   ("A#1", 58.27), ("B1", 61.74),
   ("C2", 65.41), ("C#2", 69.30), ("D2", 73.42), ("D#2", 77.78), ("E2", 82.41),
   ("F2", 87.31), ("F#2", 92.50), ("G2", 98.00), ("G#2", 103.83), ("A2", 110.00),
   ("A#2", 116.54), ("B2", 123.47),
   ("C3", 130.81), ("C#3", 138.59), ("D3", 146.83), ("D#3", 155.56), ("E3", 164.81),
   ("F3", 174.61), ("F#3", 185.00), ("G3", 196.00), ("G#3", 207.65), ("A3", 220.00),
   ("A#3", 233.08), ("B3", 246.94),
   ("C4", 261.63), ("C#4", 277.18), ("D4", 293.66), ("D#4", 311.13), ("E4", 329.63),
   ("F4", 349.23), ("F#4", 369.99), ("G4", 392.00), ("G#4", 415.30), ("A4", 440.00),
   ("A#4", 466.16), ("B4", 493.88),
   ("C5", 523.25), ("C#5", 554.37), ("D5", 587.33), ("D#5", 622.25), ("E5", 659.25),
   ("F5", 698.46), ("F#5", 739.99), ("G5", 783.99), ("G#5", 830.61), ("A5", 880.00),
   ("A#5", 932.33), ("B5", 987.77)]

/-- Lookup of a note name in NOTE_FREQS (the source indexes the map
and lets an absent key produce undefined). -/
def noteFreq (n : String) : Option ℚ :=
  NOTE_FREQS.lookup n

/-- The mutable session state of the AudioEngine class.  hasCtx models
whether the AudioContext has been created (this.ctx !== null); the
decoded custom sample buffer is identified by a natural number. -/
structure EngineState where
  hasCtx : Bool
  currentStep : ℕ
  nextNoteTime : ℚ
  isPlaying : Bool
  tempoModifier : ℚ
  bassDistortionActive : Bool
  customBuffer : Option ℕ
  isCustomMuted : Bool
  trackData : Option TrackData
deriving DecidableEq

/-- Method init: creates the AudioContext and the signal graph on
first use (idempotent). -/
def initCtx (st : EngineState) : EngineState :=
  { st with hasCtx := true }

/-- Method loadTrack: stores the track document and resets the step
index to 0. -/
def loadTrack (st : EngineState) (data : TrackData) : EngineState :=
  { st with trackData := some data, currentStep := 0 }

/-- Method setTempoModifier: clamps the argument with
Math.max(0.5, Math.min(2.0, modifier)). -/
def setTempoModifier (st : EngineState) (modifier : ℚ) : EngineState :=
  { st with tempoModifier := max 0.5 (min 2.0 modifier) }

/-- Method setBassDistortion: stores the flag. -/
def setBassDistortion (st : EngineState) (active : Bool) : EngineState :=
  { st with bassDistortionActive := active }

/-- Method muteCustomTrack: stores the mute flag. -/
def muteCustomTrack (st : EngineState) (mute : Bool) : EngineState :=
  { st with isCustomMuted := mute }

/-- Method loadCustomSample: ensures the context exists, then decodes
the buffer.  The decode result is passed in as an Except value; on
success the buffer is stored and the mute flag cleared, on failure the
error is caught (logged to the console) and the state is left as it
was.  The function is total: no exception propagates to the caller. -/
def loadCustomSample (st : EngineState) (decoded : Except String ℕ) : EngineState :=
  let st1 := initCtx st
  match decoded with
  | .ok buf => { st1 with customBuffer := some buf, isCustomMuted := false }
  | .error _ => st1

/-- Method nextStep of the scheduler: advances the next trigger time
by one sixteenth beat at the tempo-modified BPM and increments the
step index modulo 16.  Without a loaded track it returns early. -/
def nextStep (st : EngineState) : EngineState :=
  match st.trackData with
  | none => st
  | some td =>
    let currentBpm := td.bpm * st.tempoModifier
    let secondsPerBeat := 60 / currentBpm
    { st with
      nextNoteTime := st.nextNoteTime + 0.25 * secondsPerBeat,
      currentStep := (st.currentStep + 1) % 16 }

/-- The signal chain constructed by triggerBass.  The distorted
variant records oscillator type, note frequency, filter sweep start
and end, filter Q, the drive gain and whether the shared distortion
stage is in the path; the normal variant has no drive stage and never
touches the distortion node. -/
inductive BassChain
  | distorted (oscType : Waveform) (freq : ℚ) (filterStart filterEnd : ℚ)
      (q : ℚ) (drive : ℚ) (sharedDistortionStage : Bool)
  | normal (oscType : Waveform) (freq : ℚ) (filterStart filterEnd : ℚ) (q : ℚ)
deriving DecidableEq

/-- Method triggerBass, as the chain it builds: with the distortion
flag set it builds sawtooth into a Q=15 lowpass sweeping 2.5x the
cutoff down to the cutoff, into a 5x drive gain, into the shared
distortion node when that node exists; otherwise it builds the track
waveform into a Q=2 lowpass sweeping the cutoff to 0.8x the cutoff. -/
def triggerBassChain (distortionActive : Bool) (hasDistortionNode : Bool)
    (freq : ℚ) (settings : BassSettings) : BassChain :=
  if distortionActive then
    .distorted .sawtooth freq (settings.filterFreq * 2.5) settings.filterFreq
      15 5.0 hasDistortionNode
  else
    .normal settings.waveform freq settings.filterFreq (settings.filterFreq * 0.8) 2

/-- The structural skeleton of a bass chain: the constructed node
topology and fixed parameters, with the per-note frequency erased. -/
def BassChain.skeleton : BassChain → BassChain
  | .distorted w _ fs fe q d s => .distorted w 0 fs fe q d s
  | .normal w _ fs fe q => .normal w 0 fs fe q

/-- The voice built by triggerLead: oscillator into resonant lowpass
into the envelope gain, an optional FM sub-oscillator at twice the
pitch for sine and triangle waveforms, and a slapback delay tap with
feedback.  delayTime is the delayTime.value the source assigns (the
literal 3/16, in seconds). -/
structure LeadVoice where
  oscType : Waveform
  freq : ℚ
  attackTime : ℚ
  decayEnd : ℚ
  filterQ : ℚ
  filterStart : ℚ
  filterEnd : ℚ
  hasFM : Bool
  fmFreq : ℚ
  delayTime : ℚ
  feedbackGain : ℚ
  delayGain : ℚ
deriving DecidableEq

/-- Method triggerLead, as the voice description it builds. -/
def triggerLeadVoice (freq : ℚ) (settings : SynthSettings) : LeadVoice :=
  { oscType := settings.waveform
    freq := freq
    attackTime := 0.005
    decayEnd := settings.decay * 0.8 + 0.05
    filterQ := settings.resonance * 0.5
    filterStart := settings.cutoff
    filterEnd := settings.cutoff * 0.5
    hasFM := settings.waveform == .sine || settings.waveform == .triangle
    fmFreq := freq * 2
    delayTime := 3 / 16
    feedbackGain := 0.3
    delayGain := 0.3 }

/-- A voice enqueued by the step dispatcher at an absolute time. -/
inductive Voice
  | kick (time punch : ℚ)
  | hat (time bright : ℚ)
  | bass (time : ℚ) (chain : BassChain)
  | lead (time : ℚ) (lv : LeadVoice)
  | sfx (time : ℚ) (kind : String)
  | customSample (time : ℚ) (buf : ℕ) (gain : ℚ)
deriving DecidableEq

/-- Recognizer for kick voices. -/
def Voice.isKick : Voice → Bool
  | .kick .. => true
  | _ => false

/-- Recognizer for bass voices. -/
def Voice.isBass : Voice → Bool
  | .bass .. => true
  | _ => false

/-- Recognizer for lead voices. -/
def Voice.isLead : Voice → Bool
  | .lead .. => true
  | _ => false

/-- The nine ambience tags handled by the switch in triggerSFX. -/
def sfxKinds : List String :=
  ["cat", "dog", "bird", "thunder", "water", "traffic", "wind", "machinery", "people"]

/-- Method triggerSFX: dispatches on the tag; an unknown tag falls
through the switch and produces nothing. -/
def triggerSFX (time : ℚ) (type : String) : List Voice :=
  if type ∈ sfxKinds then [Voice.sfx time type] else []

/-- Kick line of scheduleStep: if (sequences.kick[step]) triggerKick.
An index past the end of the row reads undefined, which is falsy. -/
def kickPart (td : TrackData) (step : ℕ) (time : ℚ) : List Voice :=
  if td.sequences.kick.getD step false then
    [Voice.kick time td.drumSettings.kickPunch]
  else []

/-- Hat line of scheduleStep. -/
def hatPart (td : TrackData) (step : ℕ) (time : ℚ) : List Voice :=
  if td.sequences.hat.getD step false then
    [Voice.hat time td.drumSettings.hatBright]
  else []

/-- Bass lines of scheduleStep: the slot must be truthy (non-null and
non-empty) and its value must index NOTE_FREQS to a truthy (nonzero)
frequency.  The dispatcher only runs with the context initialized, so
the shared distortion node exists and triggerBass sees it. -/
def bassPart (st : EngineState) (td : TrackData) (step : ℕ) (time : ℚ) : List Voice :=
  match td.sequences.bass.getD step none with
  | some n =>
    if n != "" then
      match noteFreq n with
      | some f =>
        if f != 0 then
          [Voice.bass time (triggerBassChain st.bassDistortionActive true f td.bassSettings)]
        else []
      | none => []
    else []
  | none => []

/-- Lead lines of scheduleStep, with the same guard shape as bass. -/
def leadPart (td : TrackData) (step : ℕ) (time : ℚ) : List Voice :=
  match td.sequences.lead.getD step none with
  | some n =>
    if n != "" then
      match noteFreq n with
      | some f =>
        if f != 0 then [Voice.lead time (triggerLeadVoice f td.synthSettings)]
        else []
      | none => []
    else []
  | none => []

/-- Sfx line of scheduleStep: the sfx row must exist, its slot be
true, and soundEffect be truthy and not the tag none. -/
def sfxPart (td : TrackData) (step : ℕ) (time : ℚ) : List Voice :=
  match td.sequences.sfx, td.soundEffect with
  | some arr, some se =>
    if arr.getD step false && se != "" && se != "none" then triggerSFX time se
    else []
  | _, _ => []

/-- Custom-sample lines of scheduleStep: a buffer must be loaded, the
custom row slot true (a missing row reads false), and the mute flag
clear. -/
def customPart (st : EngineState) (td : TrackData) (step : ℕ) (time : ℚ) : List Voice :=
  match st.customBuffer with
  | some buf =>
    if (match td.sequences.custom with
        | some arr => arr.getD step false
        | none => false) && !st.isCustomMuted then
      [Voice.customSample time buf 0.7]
    else []
  | none => []

/-- Method scheduleStep: the step dispatcher.  Returns the list of
voices enqueued for the step at the given absolute time.  Without a
track or a context it returns early with nothing. -/
def scheduleStep (st : EngineState) (step : ℕ) (time : ℚ) : List Voice :=
  match st.trackData, st.hasCtx with
  | some td, true =>
    kickPart td step time ++ hatPart td step time ++ bassPart st td step time ++
      leadPart td step time ++ sfxPart td step time ++ customPart st td step time
  | _, _ => []

/-- The kind of a Web Audio parameter automation event. -/
inductive RampKind
  | setValue
  | linearRamp
  | exponentialRamp
deriving DecidableEq

/-- One timestamped automation event on an AudioParam: its kind, the
target value and the event time. -/
structure AutomationEvent where
  kind : RampKind
  target : ℚ
  time : ℚ
deriving DecidableEq

/-- An AudioParam: its current computed value (what reading .value
yields at the moment a method runs) and its list of scheduled
automation events. -/
structure AudioParam where
  value : ℚ
  events : List AutomationEvent
deriving DecidableEq

/-- AudioParam.cancelScheduledValues(t): removes every scheduled
event whose time is at or after t. -/
def cancelScheduledValues (t : ℚ) (p : AudioParam) : AudioParam :=
  { p with events := p.events.filter (fun e => decide (e.time < t)) }

/-- AudioParam.setValueAtTime(v, t). -/
def setValueAtTime (v t : ℚ) (p : AudioParam) : AudioParam :=
  { p with events := p.events ++ [⟨.setValue, v, t⟩] }

/-- AudioParam.linearRampToValueAtTime(v, t). -/
def linearRampToValueAtTime (v t : ℚ) (p : AudioParam) : AudioParam :=
  { p with events := p.events ++ [⟨.linearRamp, v, t⟩] }

/-- AudioParam.exponentialRampToValueAtTime(v, t). -/
def exponentialRampToValueAtTime (v t : ℚ) (p : AudioParam) : AudioParam :=
  { p with events := p.events ++ [⟨.exponentialRamp, v, t⟩] }

/-- Method triggerReverb on the reverb send gain: cancel pending
automation, anchor at the current value, ramp to 1.0 over 100ms, then
decay exponentially to 0.01 by two seconds. -/
def triggerReverb (time : ℚ) (p : AudioParam) : AudioParam :=
  let p1 := cancelScheduledValues time p
  let p2 := setValueAtTime p1.value time p1
  let p3 := linearRampToValueAtTime 1.0 (time + 0.1) p2
  exponentialRampToValueAtTime 0.01 (time + 2.0) p3

/-- Method triggerLowPass on the master filter frequency: cancel,
anchor, sweep down to 100 Hz by 200ms, then back up to 22000 Hz by
1.5s. -/
def triggerLowPass (time : ℚ) (p : AudioParam) : AudioParam :=
  let p1 := cancelScheduledValues time p
  let p2 := setValueAtTime p1.value time p1
  let p3 := exponentialRampToValueAtTime 100 (time + 0.2) p2
  exponentialRampToValueAtTime 22000 (time + 1.5) p3

/-- Method triggerDistortion on the distortion send gain: cancel,
anchor, ramp to 0.8 over 100ms, then back to 0 by 500ms. -/
def triggerDistortion (time : ℚ) (p : AudioParam) : AudioParam :=
  let p1 := cancelScheduledValues time p
  let p2 := setValueAtTime p1.value time p1
  let p3 := linearRampToValueAtTime 0.8 (time + 0.1) p2
  linearRampToValueAtTime 0 (time + 0.5) p3

/-- Method triggerDelay on the delay send gain: cancel, anchor, ramp
to 1.0 over 100ms, then back to 0 by 400ms. -/
def triggerDelay (time : ℚ) (p : AudioParam) : AudioParam :=
  let p1 := cancelScheduledValues time p
  let p2 := setValueAtTime p1.value time p1
  let p3 := linearRampToValueAtTime 1.0 (time + 0.1) p2
  linearRampToValueAtTime 0 (time + 0.4) p3

/-- The automated parameters of the signal graph that the gesture
effects touch. -/
structure GraphState where
  reverbSendGain : AudioParam
  masterFilterFreq : AudioParam
  distortionSendGain : AudioParam
  delaySendGain : AudioParam
deriving DecidableEq

/-- Method triggerGestureFX: dispatches the gesture token to the
matching trigger; an unknown token does nothing. -/
def triggerGestureFX (name : String) (time : ℚ) (g : GraphState) : GraphState :=
  if name = "reverb" then
    { g with reverbSendGain := triggerReverb time g.reverbSendGain }
  else if name = "filter" then
    { g with masterFilterFreq := triggerLowPass time g.masterFilterFreq }
  else if name = "distortion" then
    { g with distortionSendGain := triggerDistortion time g.distortionSendGain }
  else if name = "delay" then
    { g with delaySendGain := triggerDelay time g.delaySendGain }
  else g

/-- The four recognized gesture tokens. -/
def gestureTokens : List String := ["reverb", "filter", "distortion", "delay"]

/-- The parameter a gesture token automates. -/
def gestureTargetParam (name : String) (g : GraphState) : AudioParam :=
  if name = "reverb" then g.reverbSendGain
  else if name = "filter" then g.masterFilterFreq
  else if name = "distortion" then g.distortionSendGain
  else g.delaySendGain

/-- Lower bound of the valid range of the automated parameter: 0 for
the send gains, 100 Hz for the master filter frequency. -/
def gestureRangeLo (name : String) : ℚ :=
  if name = "filter" then 100 else 0

/-- Upper bound of the valid range of the automated parameter: 1 for
the send gains, 22000 Hz for the master filter frequency. -/
def gestureRangeHi (name : String) : ℚ :=
  if name = "filter" then 22000 else 1

/-- The three automation events a single gesture trigger schedules,
given the trigger time and the parameter's current value: the anchor
followed by the two ramps the matching trigger method issues. -/
def gestureNewEvents (name : String) (t cur : ℚ) : List AutomationEvent :=
  if name = "reverb" then
    [⟨.setValue, cur, t⟩, ⟨.linearRamp, 1.0, t + 0.1⟩, ⟨.exponentialRamp, 0.01, t + 2.0⟩]
  else if name = "filter" then
    [⟨.setValue, cur, t⟩, ⟨.exponentialRamp, 100, t + 0.2⟩, ⟨.exponentialRamp, 22000, t + 1.5⟩]
  else if name = "distortion" then
    [⟨.setValue, cur, t⟩, ⟨.linearRamp, 0.8, t + 0.1⟩, ⟨.linearRamp, 0, t + 0.5⟩]
  else if name = "delay" then
    [⟨.setValue, cur, t⟩, ⟨.linearRamp, 1.0, t + 0.1⟩, ⟨.linearRamp, 0, t + 0.4⟩]
  else []

/-- The events of a parameter still pending at or after time t. -/
def pendingEvents (t : ℚ) (p : AudioParam) : List AutomationEvent :=
  p.events.filter (fun e => decide (t ≤ e.time))

/-- A concrete track document used to instantiate the theorems:
120 BPM, kick on the quarter notes, hat off-beats, a bass and a lead
note on step 0, a cat sfx row and a custom row. -/
def exampleTrack : TrackData :=
  { bpm := 120
    key := "C minor"
    mood := "dark"
    soundEffect := some "cat"
    synthSettings :=
      { waveform := .sawtooth, cutoff := 2000, resonance := 4, attack := 0.01, decay := 0.3 }
    bassSettings := { waveform := .square, filterFreq := 800 }
    drumSettings := { kickPunch := 0.5, hatBright := 0.5 }
    sequences :=
      { kick := [true, false, false, false, true, false, false, false,
                 true, false, false, false, true, false, false, false]
        hat := [false, false, true, false, false, false, true, false,
                false, false, true, false, false, false, true, false]
        bass := [some "C2", none, none, none, none, none, none, none,
                 none, none, none, none, none, none, none, none]
        lead := [some "E4", none, some "Q9", none, none, none, none, none,
                 none, none, none, none, none, none, none, none]
        sfx := some [false, false, false, false, false, false, false, false,
                     true, false, false, false, false, false, false, false]
        custom := some [true, false, false, false, false, false, false, false,
                        false, false, false, false, false, false, false, false] } }

/-- A concrete session state with the context built, the example
track loaded, and a custom sample decoded. -/
def exState : EngineState :=
  { hasCtx := true
    currentStep := 0
    nextNoteTime := 1
    isPlaying := true
    tempoModifier := 1
    bassDistortionActive := false
    customBuffer := some 1
    isCustomMuted := false
    trackData := some exampleTrack }

/-- A concrete graph state with some stale automation already
scheduled on the reverb send gain. -/
def exGraph : GraphState :=
  { reverbSendGain :=
      { value := 0.4
        events := [⟨.linearRamp, 1.0, 3.1⟩, ⟨.exponentialRamp, 0.01, 5.0⟩] }
    masterFilterFreq := { value := 22000, events := [] }
    distortionSendGain := { value := 0, events := [] }
    delaySendGain := { value := 0, events := [] } }

/-! Helper lemmas. -/

/-- In an association list whose entries all have a nonempty key and a
nonzero value, a successful lookup yields a nonempty key and a nonzero
value. -/
theorem lookup_entry_good :
    ∀ (l : List (String × ℚ)), (∀ p ∈ l, p.1 ≠ "" ∧ p.2 ≠ 0) →
      ∀ n f, l.lookup n = some f → n ≠ "" ∧ f ≠ 0 := by
  intro l
  induction l with
  | nil =>
    intro _ n f h
    simp [List.lookup] at h
  | cons hd tl ih =>
    intro hl n f h
    obtain ⟨k, v⟩ := hd
    by_cases hk : n = k
    · subst hk
      rw [List.lookup, beq_self_eq_true] at h
      obtain ⟨h1, h2⟩ := hl (n, v) (List.mem_cons_self _ _)
      have hv : v = f := by simpa using h
      exact ⟨h1, hv ▸ h2⟩
    · have hbeq : (n == k) = false := by
        simpa using hk
      rw [List.lookup, hbeq] at h
      exact ih (fun p hp => hl p (List.mem_cons_of_mem _ hp)) n f h

/-- Every entry of NOTE_FREQS has a nonempty name and a nonzero
frequency, so a resolvable note name passes both truthiness guards of
the dispatcher. -/
theorem noteFreq_good (n : String) (f : ℚ) (h : noteFreq n = some f) :
    n ≠ "" ∧ f ≠ 0 :=
  lookup_entry_good NOTE_FREQS
    (by intro p hp; fin_cases hp <;> exact ⟨by decide, by norm_num⟩) n f h

/-- With a track loaded and the context built, the dispatcher is the
concatenation of its six per-instrument parts. -/
theorem scheduleStep_expand (st : EngineState) (td : TrackData)
    (h1 : st.trackData = some td) (h2 : st.hasCtx = true) (s : ℕ) (t : ℚ) :
    scheduleStep st s t =
      kickPart td s t ++ hatPart td s t ++ bassPart st td s t ++
        leadPart td s t ++ sfxPart td s t ++ customPart st td s t := by
  unfold scheduleStep
  rw [h1, h2]

/-- The hat part is empty or a single hat voice at the step time. -/
theorem hatPart_shape (td : TrackData) (s : ℕ) (t : ℚ) :
    hatPart td s t = [] ∨ hatPart td s t = [Voice.hat t td.drumSettings.hatBright] := by
  unfold hatPart
  split
  · exact Or.inr rfl
  · exact Or.inl rfl

/-- The kick part is empty or a single kick voice at the step time. -/
theorem kickPart_shape (td : TrackData) (s : ℕ) (t : ℚ) :
    kickPart td s t = [] ∨ kickPart td s t = [Voice.kick t td.drumSettings.kickPunch] := by
  unfold kickPart
  split
  · exact Or.inr rfl
  · exact Or.inl rfl

/-- The bass part is empty or a single bass voice at the step time. -/
theorem bassPart_shape (st : EngineState) (td : TrackData) (s : ℕ) (t : ℚ) :
    bassPart st td s t = [] ∨ ∃ c, bassPart st td s t = [Voice.bass t c] := by
  unfold bassPart
  repeat' split
  all_goals first
  | exact Or.inl rfl
  | exact Or.inr ⟨_, rfl⟩

/-- The lead part is empty or a single lead voice at the step time. -/
theorem leadPart_shape (td : TrackData) (s : ℕ) (t : ℚ) :
    leadPart td s t = [] ∨ ∃ lv, leadPart td s t = [Voice.lead t lv] := by
  unfold leadPart
  repeat' split
  all_goals first
  | exact Or.inl rfl
  | exact Or.inr ⟨_, rfl⟩

/-- The sfx part is empty or a single sfx voice at the step time. -/
theorem sfxPart_shape (td : TrackData) (s : ℕ) (t : ℚ) :
    sfxPart td s t = [] ∨ ∃ k, sfxPart td s t = [Voice.sfx t k] := by
  unfold sfxPart triggerSFX
  repeat' split
  all_goals first
  | exact Or.inl rfl
  | exact Or.inr ⟨_, rfl⟩

/-- The custom part is empty or a single custom-sample voice at the
step time. -/
theorem customPart_shape (st : EngineState) (td : TrackData) (s : ℕ) (t : ℚ) :
    customPart st td s t = [] ∨ ∃ b, customPart st td s t = [Voice.customSample t b 0.7] := by
  unfold customPart
  repeat' split
  all_goals first
  | exact Or.inl rfl
  | exact Or.inr ⟨_, rfl⟩

/-- The kick voices the dispatcher enqueues are exactly those of the
kick line. -/
theorem scheduleStep_filter_kick (st : EngineState) (td : TrackData)
    (h1 : st.trackData = some td) (h2 : st.hasCtx = true) (s : ℕ) (t : ℚ) :
    (scheduleStep st s t).filter Voice.isKick = kickPart td s t := by
  rw [scheduleStep_expand st td h1 h2 s t]
  simp only [List.filter_append]
  have hk : (kickPart td s t).filter Voice.isKick = kickPart td s t := by
    rcases kickPart_shape td s t with h | h <;> rw [h] <;> rfl
  have hh : (hatPart td s t).filter Voice.isKick = [] := by
    rcases hatPart_shape td s t with h | h <;> rw [h] <;> rfl
  have hb : (bassPart st td s t).filter Voice.isKick = [] := by
    rcases bassPart_shape st td s t with h | ⟨c, h⟩ <;> rw [h] <;> rfl
  have hl : (leadPart td s t).filter Voice.isKick = [] := by
    rcases leadPart_shape td s t with h | ⟨lv, h⟩ <;> rw [h] <;> rfl
  have hx : (sfxPart td s t).filter Voice.isKick = [] := by
    rcases sfxPart_shape td s t with h | ⟨k, h⟩ <;> rw [h] <;> rfl
  have hc : (customPart st td s t).filter Voice.isKick = [] := by
    rcases customPart_shape st td s t with h | ⟨b, h⟩ <;> rw [h] <;> rfl
  rw [hk, hh, hb, hl, hx, hc]
  simp

/-- The bass voices the dispatcher enqueues are exactly those of the
bass line. -/
theorem scheduleStep_filter_bass (st : EngineState) (td : TrackData)
    (h1 : st.trackData = some td) (h2 : st.hasCtx = true) (s : ℕ) (t : ℚ) :
    (scheduleStep st s t).filter Voice.isBass = bassPart st td s t := by
  rw [scheduleStep_expand st td h1 h2 s t]
  simp only [List.filter_append]
  have hk : (kickPart td s t).filter Voice.isBass = [] := by
    rcases kickPart_shape td s t with h | h <;> rw [h] <;> rfl
  have hh : (hatPart td s t).filter Voice.isBass = [] := by
    rcases hatPart_shape td s t with h | h <;> rw [h] <;> rfl
  have hb : (bassPart st td s t).filter Voice.isBass = bassPart st td s t := by
    rcases bassPart_shape st td s t with h | ⟨c, h⟩ <;> rw [h] <;> rfl
  have hl : (leadPart td s t).filter Voice.isBass = [] := by
    rcases leadPart_shape td s t with h | ⟨lv, h⟩ <;> rw [h] <;> rfl
  have hx : (sfxPart td s t).filter Voice.isBass = [] := by
    rcases sfxPart_shape td s t with h | ⟨k, h⟩ <;> rw [h] <;> rfl
  have hc : (customPart st td s t).filter Voice.isBass = [] := by
    rcases customPart_shape st td s t with h | ⟨b, h⟩ <;> rw [h] <;> rfl
  rw [hk, hh, hb, hl, hx, hc]
  simp

/-- The lead voices the dispatcher enqueues are exactly those of the
lead line. -/
theorem scheduleStep_filter_lead (st : EngineState) (td : TrackData)
    (h1 : st.trackData = some td) (h2 : st.hasCtx = true) (s : ℕ) (t : ℚ) :
    (scheduleStep st s t).filter Voice.isLead = leadPart td s t := by
  rw [scheduleStep_expand st td h1 h2 s t]
  simp only [List.filter_append]
  have hk : (kickPart td s t).filter Voice.isLead = [] := by
    rcases kickPart_shape td s t with h | h <;> rw [h] <;> rfl
  have hh : (hatPart td s t).filter Voice.isLead = [] := by
    rcases hatPart_shape td s t with h | h <;> rw [h] <;> rfl
  have hb : (bassPart st td s t).filter Voice.isLead = [] := by
    rcases bassPart_shape st td s t with h | ⟨c, h⟩ <;> rw [h] <;> rfl
  have hl : (leadPart td s t).filter Voice.isLead = leadPart td s t := by
    rcases leadPart_shape td s t with h | ⟨lv, h⟩ <;> rw [h] <;> rfl
  have hx : (sfxPart td s t).filter Voice.isLead = [] := by
    rcases sfxPart_shape td s t with h | ⟨k, h⟩ <;> rw [h] <;> rfl
  have hc : (customPart st td s t).filter Voice.isLead = [] := by
    rcases customPart_shape st td s t with h | ⟨b, h⟩ <;> rw [h] <;> rfl
  rw [hk, hh, hb, hl, hx, hc]
  simp

/-! Claim theorems. -/

/-- C1: when dispatch runs for step s with absolute time t, it
enqueues exactly one kick voice scheduled at t if the kick row holds
true at s, and no kick voice if it holds false. -/
theorem kick_dispatch_exact (st : EngineState) (td : TrackData)
    (h1 : st.trackData = some td) (h2 : st.hasCtx = true)
    (s : ℕ) (hs : s < 16) (t : ℚ) :
    (scheduleStep st s t).filter Voice.isKick =
      if td.sequences.kick.getD s false then [Voice.kick t td.drumSettings.kickPunch]
      else [] := by
  have := hs
  rw [scheduleStep_filter_kick st td h1 h2 s t]
  rfl

/-- Witness for C1 at a concrete state: step 0 of the example track
has its kick slot set and dispatch enqueues exactly one kick voice at
the step time. -/
theorem kick_dispatch_exact_witness :
    (scheduleStep exState 0 (5 : ℚ)).filter Voice.isKick =
      if exampleTrack.sequences.kick.getD 0 false then
        [Voice.kick 5 exampleTrack.drumSettings.kickPunch]
      else [] :=
  kick_dispatch_exact exState exampleTrack rfl rfl 0 (by norm_num) 5

/-- C3: setTempoModifier clamps its argument to the interval
0.5 to 2.0 and is idempotent under clamping; setTempoModifier 10 is
the same update as setTempoModifier 2.0 and setTempoModifier 0.01 the
same as setTempoModifier 0.5. -/
theorem tempo_modifier_clamp_idempotent (st : EngineState) (x : ℚ) :
    setTempoModifier st x = setTempoModifier st (max 0.5 (min 2.0 x)) ∧
    setTempoModifier st 10 = setTempoModifier st 2.0 ∧
    setTempoModifier st 0.01 = setTempoModifier st 0.5 ∧
    0.5 ≤ (setTempoModifier st x).tempoModifier ∧
    (setTempoModifier st x).tempoModifier ≤ 2.0 := by
  refine ⟨?_, ?_, ?_, ?_, ?_⟩
  · unfold setTempoModifier
    have h1 : max 0.5 (min 2.0 x) ≤ 2.0 := max_le (by norm_num) (min_le_left _ _)
    have h2 : max 0.5 (min 2.0 (max 0.5 (min 2.0 x))) = max 0.5 (min 2.0 x) := by
      rw [min_eq_right h1, ← max_assoc, max_self]
    exact congrArg (fun v => { st with tempoModifier := v }) h2.symm
  · unfold setTempoModifier
    have h : (max 0.5 (min 2.0 (10 : ℚ))) = max 0.5 (min 2.0 2.0) := by
      norm_num [min_def, max_def]
    exact congrArg (fun v => { st with tempoModifier := v }) h
  · unfold setTempoModifier
    have h : (max 0.5 (min 2.0 (0.01 : ℚ))) = max 0.5 (min 2.0 0.5) := by
      norm_num [min_def, max_def]
    exact congrArg (fun v => { st with tempoModifier := v }) h
  · exact le_max_left _ _
  · exact max_le (by norm_num) (min_le_left _ _)

/-- C4: loadTrack sets the step index to 0 and swaps the track
reference, and leaves every other session-state field unchanged, so a
running clock is neither reset nor interrupted. -/
theorem load_track_frame (st : EngineState) (data : TrackData) :
    (loadTrack st data).currentStep = 0 ∧
    (loadTrack st data).trackData = some data ∧
    (loadTrack st data).nextNoteTime = st.nextNoteTime ∧
    (loadTrack st data).isPlaying = st.isPlaying ∧
    (loadTrack st data).tempoModifier = st.tempoModifier ∧
    (loadTrack st data).isCustomMuted = st.isCustomMuted ∧
    (loadTrack st data).bassDistortionActive = st.bassDistortionActive ∧
    (loadTrack st data).customBuffer = st.customBuffer ∧
    (loadTrack st data).hasCtx = st.hasCtx :=
  ⟨rfl, rfl, rfl, rfl, rfl, rfl, rfl, rfl, rfl⟩

/-- C7 counterexample: the slapback delay time of a lead voice is the
constant 3/16 seconds, which at the example track's effective tempo
(120 BPM, modifier 1, one beat = 0.5 s) differs from 3/16 of a beat. -/
theorem lead_slapback_cex :
    (triggerLeadVoice 440 exampleTrack.synthSettings).delayTime ≠
      3 / 16 * (60 / (exampleTrack.bpm * 1)) := by
  norm_num [triggerLeadVoice, exampleTrack]

/-- C7 amended: every triggered lead voice includes a slapback delay
tap with a fixed delay time of 3/16 seconds (independent of tempo;
equal to 3/16 of a beat only at an effective tempo of 60 BPM), with
feedback gain 0.3 and tap level 0.3. -/
theorem lead_slapback_fixed_delay (freq : ℚ) (settings : SynthSettings) :
    (triggerLeadVoice freq settings).delayTime = 3 / 16 ∧
    (triggerLeadVoice freq settings).feedbackGain = 0.3 ∧
    (triggerLeadVoice freq settings).delayGain = 0.3 :=
  ⟨rfl, rfl, rfl⟩

/-- C9: a successful custom-sample load stores the decoded buffer and
clears the custom-track mute flag, whatever its previous value, while
leaving the rest of the session state unchanged. -/
theorem load_custom_sample_unmutes (st : EngineState) (buf : ℕ) :
    (loadCustomSample st (.ok buf)).customBuffer = some buf ∧
    (loadCustomSample st (.ok buf)).isCustomMuted = false ∧
    (loadCustomSample st (.ok buf)).trackData = st.trackData ∧
    (loadCustomSample st (.ok buf)).currentStep = st.currentStep ∧
    (loadCustomSample st (.ok buf)).nextNoteTime = st.nextNoteTime ∧
    (loadCustomSample st (.ok buf)).isPlaying = st.isPlaying ∧
    (loadCustomSample st (.ok buf)).tempoModifier = st.tempoModifier ∧
    (loadCustomSample st (.ok buf)).bassDistortionActive = st.bassDistortionActive :=
  ⟨rfl, rfl, rfl, rfl, rfl, rfl, rfl, rfl⟩

/-- C10: a failed custom-sample decode is caught inside
loadCustomSample (the embedding is a total function, so no exception
reaches the caller) and leaves the previously loaded buffer, the mute
flag, and every other session-state field unchanged; only the lazily
created audio context may come into existence. -/
theorem decode_failure_preserves_state (st : EngineState) (e : String) :
    (loadCustomSample st (.error e)).customBuffer = st.customBuffer ∧
    (loadCustomSample st (.error e)).isCustomMuted = st.isCustomMuted ∧
    (loadCustomSample st (.error e)).trackData = st.trackData ∧
    (loadCustomSample st (.error e)).currentStep = st.currentStep ∧
    (loadCustomSample st (.error e)).nextNoteTime = st.nextNoteTime ∧
    (loadCustomSample st (.error e)).isPlaying = st.isPlaying ∧
    (loadCustomSample st (.error e)).tempoModifier = st.tempoModifier ∧
    (loadCustomSample st (.error e)).bassDistortionActive = st.bassDistortionActive :=
  ⟨rfl, rfl, rfl, rfl, rfl, rfl, rfl, rfl⟩

/-- The bass line fires exactly when the slot holds a note name that
resolves in NOTE_FREQS. -/
theorem bassPart_fires_iff (st : EngineState) (td : TrackData) (s : ℕ) (t : ℚ) :
    bassPart st td s t ≠ [] ↔
      ∃ n, td.sequences.bass.getD s none = some n ∧ (noteFreq n).isSome := by
  constructor
  · intro h
    cases hslot : td.sequences.bass.getD s none with
    | none =>
      exfalso
      apply h
      simp only [bassPart]
      rw [hslot]
    | some n =>
      refine ⟨n, rfl, ?_⟩
      cases hf : noteFreq n with
      | some f => rfl
      | none =>
        exfalso
        apply h
        simp only [bassPart]
        rw [hslot]
        simp [hf]
  · rintro ⟨n, hslot, hf⟩
    obtain ⟨f, hf2⟩ := Option.isSome_iff_exists.mp hf
    obtain ⟨hne, hnz⟩ := noteFreq_good n f hf2
    simp only [bassPart]
    rw [hslot]
    simp [hf2, hne, hnz]

/-- The lead line fires exactly when the slot holds a note name that
resolves in NOTE_FREQS. -/
theorem leadPart_fires_iff (td : TrackData) (s : ℕ) (t : ℚ) :
    leadPart td s t ≠ [] ↔
      ∃ n, td.sequences.lead.getD s none = some n ∧ (noteFreq n).isSome := by
  constructor
  · intro h
    cases hslot : td.sequences.lead.getD s none with
    | none =>
      exfalso
      apply h
      simp only [leadPart]
      rw [hslot]
    | some n =>
      refine ⟨n, rfl, ?_⟩
      cases hf : noteFreq n with
      | some f => rfl
      | none =>
        exfalso
        apply h
        simp only [leadPart]
        rw [hslot]
        simp [hf]
  · rintro ⟨n, hslot, hf⟩
    obtain ⟨f, hf2⟩ := Option.isSome_iff_exists.mp hf
    obtain ⟨hne, hnz⟩ := noteFreq_good n f hf2
    simp only [leadPart]
    rw [hslot]
    simp [hf2, hne, hnz]

/-- C5: the dispatcher fires a bass (resp. lead) voice if and only if
the bass (resp. lead) slot at the step holds a note name present in
NOTE_FREQS; a null slot or an unresolvable name produces nothing, and
the step dispatcher is a total function, so the step completes with
silence rather than an error. -/
theorem note_resolution_dispatch (st : EngineState) (td : TrackData)
    (h1 : st.trackData = some td) (h2 : st.hasCtx = true) (s : ℕ) (t : ℚ) :
    ((scheduleStep st s t).filter Voice.isBass ≠ [] ↔
      ∃ n, td.sequences.bass.getD s none = some n ∧ (noteFreq n).isSome) ∧
    ((scheduleStep st s t).filter Voice.isLead ≠ [] ↔
      ∃ n, td.sequences.lead.getD s none = some n ∧ (noteFreq n).isSome) := by
  rw [scheduleStep_filter_bass st td h1 h2 s t, scheduleStep_filter_lead st td h1 h2 s t]
  exact ⟨bassPart_fires_iff st td s t, leadPart_fires_iff td s t⟩

/-- Witness for C5 at a concrete state: on the example track, step 0
resolves a bass and a lead note, and the equivalence holds there. -/
theorem note_resolution_dispatch_witness :
    ((scheduleStep exState 0 (5 : ℚ)).filter Voice.isBass ≠ [] ↔
      ∃ n, exampleTrack.sequences.bass.getD 0 none = some n ∧ (noteFreq n).isSome) ∧
    ((scheduleStep exState 0 (5 : ℚ)).filter Voice.isLead ≠ [] ↔
      ∃ n, exampleTrack.sequences.lead.getD 0 none = some n ∧ (noteFreq n).isSome) :=
  note_resolution_dispatch exState exampleTrack rfl rfl 0 5

/-- C6: the chains built for two consecutively triggered bass notes
are structurally different exactly when the bass-distortion flag
differs between the two trigger times: the distorted path is sawtooth
into a Q=15 lowpass sweeping 2.5x the cutoff down to the cutoff, into
a 5x drive gain, into the shared distortion stage, and the normal
path is the track waveform into a Q=2 lowpass with no distortion
stage.  The chain is a pure function of the flag at trigger time, and
setBassDistortion updates the flag and nothing else, so changing the
flag affects only subsequently triggered notes, never a chain already
built. -/
theorem bass_distortion_paths (settings : BassSettings) (f1 f2 : ℚ) (b1 b2 : Bool)
    (st : EngineState) (b : Bool) :
    (b1 ≠ b2 →
      (triggerBassChain b1 true f1 settings).skeleton ≠
        (triggerBassChain b2 true f2 settings).skeleton) ∧
    (b1 = b2 →
      (triggerBassChain b1 true f1 settings).skeleton =
        (triggerBassChain b2 true f2 settings).skeleton) ∧
    triggerBassChain true true f1 settings =
      BassChain.distorted Waveform.sawtooth f1 (settings.filterFreq * 2.5)
        settings.filterFreq 15 5.0 true ∧
    triggerBassChain false true f1 settings =
      BassChain.normal settings.waveform f1 settings.filterFreq
        (settings.filterFreq * 0.8) 2 ∧
    setBassDistortion st b = { st with bassDistortionActive := b } := by
  refine ⟨?_, ?_, rfl, rfl, rfl⟩
  · intro h
    cases b1 <;> cases b2 <;> simp_all [triggerBassChain, BassChain.skeleton]
  · intro h
    subst h
    cases b1 <;> rfl

/-- Witness for C6 at concrete inputs: with the distortion flag
toggled between two notes the skeletons differ; with the flag held,
two notes of different pitch share the same skeleton. -/
theorem bass_distortion_paths_witness :
    (triggerBassChain true true 65.41 exampleTrack.bassSettings).skeleton ≠
      (triggerBassChain false true 65.41 exampleTrack.bassSettings).skeleton ∧
    (triggerBassChain true true 65.41 exampleTrack.bassSettings).skeleton =
      (triggerBassChain true true 98 exampleTrack.bassSettings).skeleton := by
  constructor
  · exact (bass_distortion_paths exampleTrack.bassSettings 65.41 65.41 true false
      exState true).1 (by simp)
  · exact (bass_distortion_paths exampleTrack.bassSettings 65.41 98 true true
      exState true).2.1 rfl

/-- One application of nextStep with a loaded track: the step index
advances modulo 16, the next trigger time grows by a sixteenth beat
at the tempo-modified BPM, and the track and modifier are untouched. -/
theorem nextStep_fields (st : EngineState) (td : TrackData)
    (h : st.trackData = some td) :
    (nextStep st).currentStep = (st.currentStep + 1) % 16 ∧
    (nextStep st).nextNoteTime =
      st.nextNoteTime + 0.25 * (60 / (td.bpm * st.tempoModifier)) ∧
    (nextStep st).trackData = some td ∧
    (nextStep st).tempoModifier = st.tempoModifier := by
  unfold nextStep
  rw [h]
  exact ⟨rfl, rfl, rfl, rfl⟩

/-- Iterated nextStep: the step index follows addition modulo 16 and
the next trigger time grows linearly in the number of advances. -/
theorem nextStep_iter :
    ∀ (n : ℕ) (st : EngineState) (td : TrackData), st.trackData = some td →
      st.currentStep < 16 →
      (nextStep^[n] st).currentStep = (st.currentStep + n) % 16 ∧
      (nextStep^[n] st).nextNoteTime =
        st.nextNoteTime + n * (0.25 * (60 / (td.bpm * st.tempoModifier))) ∧
      (nextStep^[n] st).trackData = some td ∧
      (nextStep^[n] st).tempoModifier = st.tempoModifier := by
  intro n
  induction n with
  | zero =>
    intro st td h hs
    refine ⟨?_, by simp, h, rfl⟩
    simp [Nat.mod_eq_of_lt hs]
  | succ n ih =>
    intro st td h hs
    obtain ⟨f1, f2, f3, f4⟩ := nextStep_fields st td h
    have hs2 : (nextStep st).currentStep < 16 := by
      rw [f1]
      exact Nat.mod_lt _ (by norm_num)
    obtain ⟨i1, i2, i3, i4⟩ := ih (nextStep st) td f3 hs2
    refine ⟨?_, ?_, by rw [Function.iterate_succ_apply]; exact i3,
      by rw [Function.iterate_succ_apply, i4, f4]⟩
    · rw [Function.iterate_succ_apply, i1, f1, Nat.mod_add_mod]
      congr 1
      omega
    · rw [Function.iterate_succ_apply, i2, f2, f4]
      push_cast
      ring

/-- C2: with a track loaded, a positive BPM and a positive tempo
modifier held fixed, one advance adds 0.25 * 60 / (bpm * modifier)
seconds and increments the step index modulo 16, and sixteen advances
return the step index to its start while adding exactly
16 * 0.25 * 60 / (bpm * modifier) seconds (the arithmetic is exact
over the rationals). -/
theorem step_advance_periodic (st : EngineState) (td : TrackData)
    (h : st.trackData = some td) (hbpm : 0 < td.bpm)
    (hmod : 0 < st.tempoModifier) (hs : st.currentStep < 16) :
    (nextStep^[16] st).currentStep = st.currentStep ∧
    (nextStep^[16] st).nextNoteTime =
      st.nextNoteTime + 16 * 0.25 * 60 / (td.bpm * st.tempoModifier) ∧
    (nextStep st).nextNoteTime =
      st.nextNoteTime + 0.25 * 60 / (td.bpm * st.tempoModifier) ∧
    (nextStep st).currentStep = (st.currentStep + 1) % 16 := by
  have hprod : td.bpm * st.tempoModifier ≠ 0 := by positivity
  obtain ⟨i1, i2, _, _⟩ := nextStep_iter 16 st td h hs
  obtain ⟨f1, f2, _, _⟩ := nextStep_fields st td h
  refine ⟨?_, ?_, ?_, f1⟩
  · rw [i1, Nat.add_mod_right]
    exact Nat.mod_eq_of_lt hs
  · rw [i2]
    push_cast
    ring
  · rw [f2]
    ring

/-- Witness for C2 at a concrete state: the example track at 120 BPM
with modifier 1, starting from step 0. -/
theorem step_advance_periodic_witness :
    (nextStep^[16] exState).currentStep = exState.currentStep ∧
    (nextStep^[16] exState).nextNoteTime =
      exState.nextNoteTime + 16 * 0.25 * 60 / (exampleTrack.bpm * exState.tempoModifier) ∧
    (nextStep exState).nextNoteTime =
      exState.nextNoteTime + 0.25 * 60 / (exampleTrack.bpm * exState.tempoModifier) ∧
    (nextStep exState).currentStep = (exState.currentStep + 1) % 16 :=
  step_advance_periodic exState exampleTrack rfl (by norm_num [exampleTrack])
    (by norm_num [exState]) (by norm_num [exState])

/-- triggerReverb rewritten as one list equation: the surviving old
events are those strictly before the trigger time, followed by the
anchor and the two new ramps. -/
theorem triggerReverb_events (t : ℚ) (p : AudioParam) :
    (triggerReverb t p).events =
      p.events.filter (fun e => decide (e.time < t)) ++
        [⟨.setValue, p.value, t⟩, ⟨.linearRamp, 1.0, t + 0.1⟩,
         ⟨.exponentialRamp, 0.01, t + 2.0⟩] := by
  simp [triggerReverb, cancelScheduledValues, setValueAtTime,
    linearRampToValueAtTime, exponentialRampToValueAtTime]

/-- triggerLowPass rewritten as one list equation. -/
theorem triggerLowPass_events (t : ℚ) (p : AudioParam) :
    (triggerLowPass t p).events =
      p.events.filter (fun e => decide (e.time < t)) ++
        [⟨.setValue, p.value, t⟩, ⟨.exponentialRamp, 100, t + 0.2⟩,
         ⟨.exponentialRamp, 22000, t + 1.5⟩] := by
  simp [triggerLowPass, cancelScheduledValues, setValueAtTime,
    linearRampToValueAtTime, exponentialRampToValueAtTime]

/-- triggerDistortion rewritten as one list equation. -/
theorem triggerDistortion_events (t : ℚ) (p : AudioParam) :
    (triggerDistortion t p).events =
      p.events.filter (fun e => decide (e.time < t)) ++
        [⟨.setValue, p.value, t⟩, ⟨.linearRamp, 0.8, t + 0.1⟩,
         ⟨.linearRamp, 0, t + 0.5⟩] := by
  simp [triggerDistortion, cancelScheduledValues, setValueAtTime,
    linearRampToValueAtTime, exponentialRampToValueAtTime]

/-- triggerDelay rewritten as one list equation. -/
theorem triggerDelay_events (t : ℚ) (p : AudioParam) :
    (triggerDelay t p).events =
      p.events.filter (fun e => decide (e.time < t)) ++
        [⟨.setValue, p.value, t⟩, ⟨.linearRamp, 1.0, t + 0.1⟩,
         ⟨.linearRamp, 0, t + 0.4⟩] := by
  simp [triggerDelay, cancelScheduledValues, setValueAtTime,
    linearRampToValueAtTime, exponentialRampToValueAtTime]

/-- After cancelling everything at or after t and appending events no
earlier than t, the events pending at or after t are exactly the new
ones: no stale automation survives into the retriggered window. -/
theorem pending_of_cancel_append (t : ℚ) (old new : List AutomationEvent)
    (hnew : ∀ e ∈ new, t ≤ e.time) :
    ((old.filter (fun e => decide (e.time < t))) ++ new).filter
      (fun e => decide (t ≤ e.time)) = new := by
  rw [List.filter_append]
  have h1 : (old.filter (fun e => decide (e.time < t))).filter
      (fun e => decide (t ≤ e.time)) = [] := by
    rw [List.filter_eq_nil_iff]
    intro a ha
    rw [List.mem_filter] at ha
    have hlt : a.time < t := of_decide_eq_true ha.2
    simp only [decide_eq_true_eq]
    linarith
  have h2 : new.filter (fun e => decide (t ≤ e.time)) = new :=
    List.filter_eq_self.mpr (fun a ha => decide_eq_true (hnew a ha))
  rw [h1, h2, List.nil_append]

/-- C8: for every gesture token, retriggering the effect first
cancels every pending scheduled value on the target parameter (only
events strictly before the trigger time survive), anchors the
parameter at its current value before scheduling the new ramps, and
the events pending from the trigger time on are exactly the new
gesture's three events, all with target values inside the parameter's
valid range — so no two diverging ramps overlap and the parameter is
never driven out of range. -/
theorem gesture_retrigger_cancels (name : String) (t : ℚ) (g : GraphState)
    (hname : name ∈ gestureTokens)
    (hlo : gestureRangeLo name ≤ (gestureTargetParam name g).value)
    (hhi : (gestureTargetParam name g).value ≤ gestureRangeHi name) :
    (gestureTargetParam name (triggerGestureFX name t g)).events =
      (gestureTargetParam name g).events.filter (fun e => decide (e.time < t)) ++
        gestureNewEvents name t (gestureTargetParam name g).value ∧
    (gestureNewEvents name t (gestureTargetParam name g).value).head? =
      some ⟨RampKind.setValue, (gestureTargetParam name g).value, t⟩ ∧
    (∀ e ∈ gestureNewEvents name t (gestureTargetParam name g).value,
      t ≤ e.time ∧ gestureRangeLo name ≤ e.target ∧ e.target ≤ gestureRangeHi name) ∧
    pendingEvents t (gestureTargetParam name (triggerGestureFX name t g)) =
      gestureNewEvents name t (gestureTargetParam name g).value := by
  have hcases : name = "reverb" ∨ name = "filter" ∨ name = "distortion" ∨ name = "delay" := by
    simpa [gestureTokens] using hname
  rcases hcases with rfl | rfl | rfl | rfl
  · -- reverb
    have hga : gestureTargetParam "reverb" (triggerGestureFX "reverb" t g) =
        triggerReverb t g.reverbSendGain := by
      simp [gestureTargetParam, triggerGestureFX]
    have hgb : gestureTargetParam "reverb" g = g.reverbSendGain := by
      simp [gestureTargetParam]
    have hne : gestureNewEvents "reverb" t g.reverbSendGain.value =
        [⟨.setValue, g.reverbSendGain.value, t⟩, ⟨.linearRamp, 1.0, t + 0.1⟩,
         ⟨.exponentialRamp, 0.01, t + 2.0⟩] := by
      simp [gestureNewEvents]
    have hlo2 : (0 : ℚ) ≤ g.reverbSendGain.value := by
      simpa [gestureRangeLo, gestureTargetParam] using hlo
    have hhi2 : g.reverbSendGain.value ≤ 1 := by
      simpa [gestureRangeHi, gestureTargetParam] using hhi
    have hrl : gestureRangeLo "reverb" = 0 := by simp [gestureRangeLo]
    have hrh : gestureRangeHi "reverb" = 1 := by simp [gestureRangeHi]
    refine ⟨?_, ?_, ?_, ?_⟩
    · rw [hga, hgb, triggerReverb_events, hne]
    · rw [hgb, hne]
      rfl
    · intro e he
      rw [hgb, hne] at he
      rw [hrl, hrh]
      simp only [List.mem_cons, List.not_mem_nil, or_false] at he
      rcases he with rfl | rfl | rfl
      · exact ⟨le_refl _, hlo2, hhi2⟩
      · exact ⟨by linarith, by norm_num, by norm_num⟩
      · exact ⟨by linarith, by norm_num, by norm_num⟩
    · unfold pendingEvents
      rw [hga, triggerReverb_events, hgb, hne]
      refine pending_of_cancel_append t _ _ ?_
      intro e he
      simp only [List.mem_cons, List.not_mem_nil, or_false] at he
      rcases he with rfl | rfl | rfl
      · exact le_refl _
      · linarith
      · linarith
  · -- filter
    have hga : gestureTargetParam "filter" (triggerGestureFX "filter" t g) =
        triggerLowPass t g.masterFilterFreq := by
      simp [gestureTargetParam, triggerGestureFX]
    have hgb : gestureTargetParam "filter" g = g.masterFilterFreq := by
      simp [gestureTargetParam]
    have hne : gestureNewEvents "filter" t g.masterFilterFreq.value =
        [⟨.setValue, g.masterFilterFreq.value, t⟩, ⟨.exponentialRamp, 100, t + 0.2⟩,
         ⟨.exponentialRamp, 22000, t + 1.5⟩] := by
      simp [gestureNewEvents]
    have hlo2 : (100 : ℚ) ≤ g.masterFilterFreq.value := by
      simpa [gestureRangeLo, gestureTargetParam] using hlo
    have hhi2 : g.masterFilterFreq.value ≤ 22000 := by
      simpa [gestureRangeHi, gestureTargetParam] using hhi
    have hrl : gestureRangeLo "filter" = 100 := by simp [gestureRangeLo]
    have hrh : gestureRangeHi "filter" = 22000 := by simp [gestureRangeHi]
    refine ⟨?_, ?_, ?_, ?_⟩
    · rw [hga, hgb, triggerLowPass_events, hne]
    · rw [hgb, hne]
      rfl
    · intro e he
      rw [hgb, hne] at he
      rw [hrl, hrh]
      simp only [List.mem_cons, List.not_mem_nil, or_false] at he
      rcases he with rfl | rfl | rfl
      · exact ⟨le_refl _, hlo2, hhi2⟩
      · exact ⟨by linarith, by norm_num, by norm_num⟩
      · exact ⟨by linarith, by norm_num, by norm_num⟩
    · unfold pendingEvents
      rw [hga, triggerLowPass_events, hgb, hne]
      refine pending_of_cancel_append t _ _ ?_
      intro e he
      simp only [List.mem_cons, List.not_mem_nil, or_false] at he
      rcases he with rfl | rfl | rfl
      · exact le_refl _
      · linarith
      · linarith
  · -- distortion
    have hga : gestureTargetParam "distortion" (triggerGestureFX "distortion" t g) =
        triggerDistortion t g.distortionSendGain := by
      simp [gestureTargetParam, triggerGestureFX]
    have hgb : gestureTargetParam "distortion" g = g.distortionSendGain := by
      simp [gestureTargetParam]
    have hne : gestureNewEvents "distortion" t g.distortionSendGain.value =
        [⟨.setValue, g.distortionSendGain.value, t⟩, ⟨.linearRamp, 0.8, t + 0.1⟩,
         ⟨.linearRamp, 0, t + 0.5⟩] := by
      simp [gestureNewEvents]
    have hlo2 : (0 : ℚ) ≤ g.distortionSendGain.value := by
      simpa [gestureRangeLo, gestureTargetParam] using hlo
    have hhi2 : g.distortionSendGain.value ≤ 1 := by
      simpa [gestureRangeHi, gestureTargetParam] using hhi
    have hrl : gestureRangeLo "distortion" = 0 := by simp [gestureRangeLo]
    have hrh : gestureRangeHi "distortion" = 1 := by simp [gestureRangeHi]
    refine ⟨?_, ?_, ?_, ?_⟩
    · rw [hga, hgb, triggerDistortion_events, hne]
    · rw [hgb, hne]
      rfl
    · intro e he
      rw [hgb, hne] at he
      rw [hrl, hrh]
      simp only [List.mem_cons, List.not_mem_nil, or_false] at he
      rcases he with rfl | rfl | rfl
      · exact ⟨le_refl _, hlo2, hhi2⟩
      · exact ⟨by linarith, by norm_num, by norm_num⟩
      · exact ⟨by linarith, by norm_num, by norm_num⟩
    · unfold pendingEvents
      rw [hga, triggerDistortion_events, hgb, hne]
      refine pending_of_cancel_append t _ _ ?_
      intro e he
      simp only [List.mem_cons, List.not_mem_nil, or_false] at he
      rcases he with rfl | rfl | rfl
      · exact le_refl _
      · linarith
      · linarith
  · -- delay
    have hga : gestureTargetParam "delay" (triggerGestureFX "delay" t g) =
        triggerDelay t g.delaySendGain := by
      simp [gestureTargetParam, triggerGestureFX]
    have hgb : gestureTargetParam "delay" g = g.delaySendGain := by
      simp [gestureTargetParam]
    have hne : gestureNewEvents "delay" t g.delaySendGain.value =
        [⟨.setValue, g.delaySendGain.value, t⟩, ⟨.linearRamp, 1.0, t + 0.1⟩,
         ⟨.linearRamp, 0, t + 0.4⟩] := by
      simp [gestureNewEvents]
    have hlo2 : (0 : ℚ) ≤ g.delaySendGain.value := by
      simpa [gestureRangeLo, gestureTargetParam] using hlo
    have hhi2 : g.delaySendGain.value ≤ 1 := by
      simpa [gestureRangeHi, gestureTargetParam] using hhi
    have hrl : gestureRangeLo "delay" = 0 := by simp [gestureRangeLo]
    have hrh : gestureRangeHi "delay" = 1 := by simp [gestureRangeHi]
    refine ⟨?_, ?_, ?_, ?_⟩
    · rw [hga, hgb, triggerDelay_events, hne]
    · rw [hgb, hne]
      rfl
    · intro e he
      rw [hgb, hne] at he
      rw [hrl, hrh]
      simp only [List.mem_cons, List.not_mem_nil, or_false] at he
      rcases he with rfl | rfl | rfl
      · exact ⟨le_refl _, hlo2, hhi2⟩
      · exact ⟨by linarith, by norm_num, by norm_num⟩
      · exact ⟨by linarith, by norm_num, by norm_num⟩
    · unfold pendingEvents
      rw [hga, triggerDelay_events, hgb, hne]
      refine pending_of_cancel_append t _ _ ?_
      intro e he
      simp only [List.mem_cons, List.not_mem_nil, or_false] at he
      rcases he with rfl | rfl | rfl
      · exact le_refl _
      · linarith
      · linarith

/-- Witness for C8 at a concrete input: retriggering the reverb
gesture at time 4 on a graph whose reverb send still has stale
automation pending at times 3.1 and 5.0. -/
theorem gesture_retrigger_cancels_witness :
    (gestureTargetParam "reverb" (triggerGestureFX "reverb" 4 exGraph)).events =
      (gestureTargetParam "reverb" exGraph).events.filter
        (fun e => decide (e.time < 4)) ++
        gestureNewEvents "reverb" 4 (gestureTargetParam "reverb" exGraph).value ∧
    (gestureNewEvents "reverb" 4 (gestureTargetParam "reverb" exGraph).value).head? =
      some ⟨RampKind.setValue, (gestureTargetParam "reverb" exGraph).value, 4⟩ ∧
    (∀ e ∈ gestureNewEvents "reverb" 4 (gestureTargetParam "reverb" exGraph).value,
      (4 : ℚ) ≤ e.time ∧ gestureRangeLo "reverb" ≤ e.target ∧
        e.target ≤ gestureRangeHi "reverb") ∧
    pendingEvents 4 (gestureTargetParam "reverb" (triggerGestureFX "reverb" 4 exGraph)) =
      gestureNewEvents "reverb" 4 (gestureTargetParam "reverb" exGraph).value :=
  gesture_retrigger_cancels "reverb" 4 exGraph (by simp [gestureTokens])
    (by simp [gestureRangeLo, gestureTargetParam, exGraph]; norm_num)
    (by simp [gestureRangeHi, gestureTargetParam, exGraph]; norm_num)

end VibeAudio
